import Mathlib

/-!
Verification development for the sync-and-action core of the vif todo
application.  The definitions below are a shallow embedding of the
TypeScript sources: the reconciliation hook `src/hooks/use-todonna.ts`
(with its variants in the unnamed parts), the zustand store
`src/stores/use-todo-store.ts`, and the action applicator of the
`useTodoActions` hook.  Asynchronous store calls are modelled by pure
functions over explicit state plus a success flag; the timing of the
save-guard flag is modelled by explicit event traces.
-/

namespace Vif

/-- JSON values as they appear in stored todo documents. -/
inductive JsonV where
  | str (s : String)
  | bool (b : Bool)
  | num (n : Int)
  | null
  deriving DecidableEq, Repr

/-- A JSON object, as an association list in key order.  A key holding the
JavaScript value `undefined` is absent from the list, matching what
JSON.stringify emits for the object literals in the source. -/
abbrev JsonObj := List (String × JsonV)

/-- A calendar date.  The application treats `date` with date-only
semantics (time of day lives in the separate `time` field), so a
JavaScript `Date` holding midnight UTC of a calendar day is embedded as
its year, month and day. -/
structure Day where
  year : Nat
  month : Nat
  day : Nat
  deriving DecidableEq, Repr

/-- Two-digit zero padding, as in the `MM` and `dd` parts of an ISO date. -/
def pad2 (n : Nat) : String :=
  if n < 10 then "0" ++ toString n else toString n

/-- Four-digit zero padding, as in the `yyyy` part of an ISO date. -/
def pad4 (n : Nat) : String :=
  if n < 10 then "000" ++ toString n
  else if n < 100 then "00" ++ toString n
  else if n < 1000 then "0" ++ toString n
  else toString n

/-- Model of `Date.prototype.toISOString` for a date-only value: the
source serializes `todo.date` (midnight UTC of a calendar day) with
`toISOString()`, producing `yyyy-MM-ddT00:00:00.000Z`. -/
def dayToIso (d : Day) : String :=
  pad4 d.year ++ "-" ++ pad2 d.month ++ "-" ++ pad2 d.day ++ "T00:00:00.000Z"

/-- Decimal value of a digit sequence. -/
def digitsToNat (l : List Char) : Nat :=
  l.foldl (fun acc c => acc * 10 + (c.toNat - 48)) 0

/-- Model of `new Date(isoString)` at calendar-day granularity: read the
`yyyy`, `MM` and `dd` components back out of the ISO string. -/
def parseIsoDay (s : String) : Day :=
  { year := digitsToNat (s.data.take 4)
    month := digitsToNat ((s.data.drop 5).take 2)
    day := digitsToNat ((s.data.drop 8).take 2) }

/-- The domain item (`TodoItem` in `src/types/index.ts`, as the hook and
store code actually use it: `completed` boolean, optional `emoji` and
`time`, optional soft-delete marker `removed`).  The optional boolean
`removed` is embedded as a `Bool`, with the JavaScript `undefined`
identified with `false`: every read site uses it in a falsy test. -/
structure TodoItem where
  id : String
  text : String
  completed : Bool
  emoji : Option String
  date : Day
  time : Option String
  removed : Bool := false
  deriving DecidableEq, Repr

/-- Modelled from the spec: `serializeTodo` lives in `lib/utils/todo`,
which is not among the provided sources.  Its documentation describes it
as ensuring `Date` objects in todos (converting ISO strings back to
`Date`); on an item whose date is already structured, as everywhere in
this embedding, it is the identity, which is what every call site in the
provided sources relies on. -/
def serializeTodo (t : TodoItem) : TodoItem := t

/-- Emit an optional field of the stored object: present when the value
is set, absent (JSON.stringify drops `undefined`) otherwise. -/
def optField (k : String) (v : Option String) : JsonObj :=
  match v with
  | some s => [(k, JsonV.str s)]
  | none => []

/-- The stored document body built by `addTodo`, `updateTodo` and
`setAllTodos` in `src/hooks/use-todonna.ts`: the `TodonnaItem` object
literal with keys `todo_item_text`, `completed`, `emoji`, `date`
(ISO string via `toISOString`), `time`, in that order. -/
def encodeTodo (t : TodoItem) : JsonObj :=
  [("todo_item_text", JsonV.str t.text), ("completed", JsonV.bool t.completed)]
    ++ optField "emoji" t.emoji
    ++ [("date", JsonV.str (dayToIso t.date))]
    ++ optField "time" t.time

/-- The storage key used for an item: `` `${todo.id}.json` ``. -/
def todoFilename (t : TodoItem) : String := t.id ++ ".json"

/-- The single put issued by `addTodo` (and `updateTodo`):
`client.storeFile("application/json", filename, jsonString)`. -/
def addTodoPut (t : TodoItem) : String × JsonObj :=
  (todoFilename t, encodeTodo t)

/-- Remove the first occurrence of `pat` from `l`. -/
def removeFirstSub (pat : List Char) : List Char → List Char
  | [] => []
  | c :: cs =>
      if pat.isPrefixOf (c :: cs) then (c :: cs).drop pat.length
      else c :: removeFirstSub pat cs

/-- Model of `filename.replace(".json", "")`: JavaScript `replace` with a
string pattern removes the first occurrence only. -/
def fileId (s : String) : String :=
  String.mk (removeFirstSub (".json").data s.data)

/-- Model of `todonnaItem.completed || false`: any falsy or missing value
collapses to `false`, a stored boolean passes through. -/
def jsCompletedField : Option JsonV → Bool
  | some (JsonV.bool b) => b
  | _ => false

/-- Model of `todonnaItem.emoji` (respectively `.time`): the stored
string when present, `undefined` (here `none`) otherwise. -/
def jsStrField : Option JsonV → Option String
  | some (JsonV.str s) => some s
  | _ => none

/-- The per-file decoding step of `loadTodos` in
`src/hooks/use-todonna.ts` (lines 55-85): a fetched value is accepted
when it is an object carrying `todo_item_text`; then
`completed: todonnaItem.completed || false`,
`date: todonnaItem.date ? new Date(todonnaItem.date) : new Date()` (the
current date `now` at decode time), `removed: false`, and the result is
passed through `serializeTodo`.  Any other key of the object is never
read. -/
def decodeTodo (filename : String) (obj : JsonObj) (now : Day) : Option TodoItem :=
  match List.lookup "todo_item_text" obj with
  | some (JsonV.str text) =>
      some (serializeTodo
        { id := fileId filename
          text := text
          completed := jsCompletedField (List.lookup "completed" obj)
          emoji := jsStrField (List.lookup "emoji" obj)
          date :=
            match List.lookup "date" obj with
            | some (JsonV.str s) => if s = "" then now else parseIsoDay s
            | _ => now
          time := jsStrField (List.lookup "time" obj)
          removed := false })
  | _ => none

/-- Model of `loadTodos`: list the namespace, fetch every file, decode, and keep
the successes (a fetch failure or an unrecognized value contributes
`null`, filtered out).  The remote store is a partial map from filename
to document. -/
def loadTodos (listing : List String) (store : String → Option JsonObj)
    (now : Day) : List TodoItem :=
  listing.filterMap (fun fn => (store fn).bind (fun obj => decodeTodo fn obj now))

/-! ## Change-loop guard -/

/-- The three flags consulted by the change-notification handler:
`isInitializedRef`, `isSavingRef` and `loadingRef` in
`src/hooks/use-todonna.ts` (`isInitialized`, `isSaving`, `isLoading` in
`src/stores/use-todo-store.ts`). -/
structure GuardState where
  isInitialized : Bool
  isSaving : Bool
  isLoading : Bool
  deriving DecidableEq, Repr

/-- The condition under which `changeHandler` calls `loadTodos`:
`isInitializedRef.current && !isSavingRef.current && !loadingRef.current`
(lines 107-113 of `src/hooks/use-todonna.ts`, identical in
`setRemoteStorage` of `src/stores/use-todo-store.ts`). -/
def changeHandlerReloads (s : GuardState) : Bool :=
  s.isInitialized && !s.isSaving && !s.isLoading

/-! ## Save-guard flag traces

Each write operation is reduced to the ordered trace of the events that
matter to the change-loop guard: setting the saving flag, the optimistic
local mutation, the awaited store call, the rollback on failure, and how
the flag is eventually cleared - either through a scheduled timeout
(`setTimeout(() => \x7b isSaving = false \x7d, delayMs)`) or
synchronously in the `finally` block. -/

inductive SyncEvent where
  | setSavingTrue
  | applyOptimistic
  | storeWrite
  | rollback
  | scheduleClearSaving (delayMs : Nat)
  | clearSavingNow
  deriving DecidableEq, Repr

/-- Trace of `addTodo` in `src/hooks/use-todonna.ts` (lines 136-169):
flag up, optimistic append, awaited `storeFile`, rollback in the catch
arm when the write failed, and a 100 ms `setTimeout` clearing the flag
in the `finally` block. -/
def useTodonna_addTodo_events (ok : Bool) : List SyncEvent :=
  [SyncEvent.setSavingTrue, SyncEvent.applyOptimistic, SyncEvent.storeWrite]
    ++ (if ok then [] else [SyncEvent.rollback])
    ++ [SyncEvent.scheduleClearSaving 100]

/-- Trace of `updateTodo` in `src/hooks/use-todonna.ts` (lines 172-206):
same shape as `addTodo`, flag cleared by a 100 ms timeout. -/
def useTodonna_updateTodo_events (ok : Bool) : List SyncEvent :=
  [SyncEvent.setSavingTrue, SyncEvent.applyOptimistic, SyncEvent.storeWrite]
    ++ (if ok then [] else [SyncEvent.rollback])
    ++ [SyncEvent.scheduleClearSaving 100]

/-- Trace of `setAllTodos` in `src/hooks/use-todonna.ts` (lines 237-304):
flag up, optimistic replace, the awaited batch of puts and deletes,
rollback on failure, 100 ms timeout clearing the flag. -/
def useTodonna_setAllTodos_events (ok : Bool) : List SyncEvent :=
  [SyncEvent.setSavingTrue, SyncEvent.applyOptimistic, SyncEvent.storeWrite]
    ++ (if ok then [] else [SyncEvent.rollback])
    ++ [SyncEvent.scheduleClearSaving 100]

/-- Trace of `addTodo` in `src/stores/use-todo-store.ts` (lines 119-140):
`set(\x7b isSaving: true \x7d)` before the write, but the `finally`
block runs `set(\x7b isSaving: false \x7d)` directly - the flag is
cleared synchronously with completion, with no settle timeout. -/
def useTodoStore_addTodo_events (ok : Bool) : List SyncEvent :=
  [SyncEvent.setSavingTrue, SyncEvent.applyOptimistic, SyncEvent.storeWrite]
    ++ (if ok then [] else [SyncEvent.rollback])
    ++ [SyncEvent.clearSavingNow]

/-- Trace of `updateTodo` in `src/stores/use-todo-store.ts`
(lines 143-174): also clears `isSaving` synchronously in `finally`. -/
def useTodoStore_updateTodo_events (ok : Bool) : List SyncEvent :=
  [SyncEvent.setSavingTrue, SyncEvent.applyOptimistic, SyncEvent.storeWrite]
    ++ (if ok then [] else [SyncEvent.rollback])
    ++ [SyncEvent.clearSavingNow]

/-- Event `a` occurs strictly before the first occurrence of `b` in `tr`. -/
abbrev precedes (a b : SyncEvent) (tr : List SyncEvent) : Prop :=
  a ∈ tr.takeWhile (fun x => decide (x ≠ b))

/-- The guard-flag discipline claimed by the spec for every write: the
flag goes up before the store write, and it is cleared only through a
positively-delayed settle timeout, never synchronously with
completion. -/
def guardFlagClaim (tr : List SyncEvent) : Prop :=
  precedes SyncEvent.setSavingTrue SyncEvent.storeWrite tr ∧
  SyncEvent.clearSavingNow ∉ tr ∧
  ∃ d, 0 < d ∧ SyncEvent.scheduleClearSaving d ∈ tr

/-! ## Reconciliation engine state transitions

Each operation of `src/hooks/use-todonna.ts` is modelled as a function
from the pre-call collection (and the argument of the operation) to the
settled collection, parameterized by whether the awaited store call
succeeded (`ok = true`) or rejected (`ok = false`). -/

/-- Model of `addTodo`: optimistic `setTodos(prev => [...prev, serializeTodo(todo)])`;
on failure the catch arm runs
`setTodos(prev => prev.filter(t => t.id !== todo.id))` against the
optimistic state. -/
def addTodoRun (todos : List TodoItem) (todo : TodoItem) (ok : Bool) :
    List TodoItem :=
  let optimistic := todos ++ [serializeTodo todo]
  if ok then optimistic else optimistic.filter (fun t => t.id != todo.id)

/-- Model of `updateTodo`: optimistic replace-by-id; on failure
`setTodos(previousTodos)` restores the captured snapshot. -/
def updateTodoRun (todos : List TodoItem) (todo : TodoItem) (ok : Bool) :
    List TodoItem :=
  let optimistic :=
    todos.map (fun t => if t.id == todo.id then serializeTodo todo else t)
  if ok then optimistic else todos

/-- Model of `deleteTodo`: optimistic removal-by-id; on failure
`setTodos(previousTodos)` restores the captured snapshot. -/
def deleteTodoRun (todos : List TodoItem) (id : String) (ok : Bool) :
    List TodoItem :=
  let optimistic := todos.filter (fun t => t.id != id)
  if ok then optimistic else todos

/-- Model of the `setAllTodos` local transition: optimistic
`setTodos(newTodos.filter(t => !t.removed).map(serializeTodo))`; on
failure `setTodos(previousTodos)` restores the captured snapshot. -/
def setAllTodosRun (todos newTodos : List TodoItem) (ok : Bool) :
    List TodoItem :=
  if ok then (newTodos.filter (fun t => !t.removed)).map serializeTodo
  else todos

/-- The batch of store operations issued by `setAllTodos`
(lines 237-304 of `src/hooks/use-todonna.ts`). -/
structure BulkOps where
  puts : List (String × JsonObj)
  deletes : List String
  deriving DecidableEq, Repr

/-- The store operations `setAllTodos` issues: one `storeFile` per
non-removed todo of the new set (unconditionally), and one `remove` per
existing listing key not among the active filenames. -/
def setAllTodosOps (newTodos : List TodoItem) (existingKeys : List String) :
    BulkOps :=
  let active := newTodos.filter (fun t => !t.removed)
  let activeIds := active.map todoFilename
  { puts := active.map (fun t => (todoFilename t, encodeTodo t))
    deletes := existingKeys.filter (fun k => !activeIds.contains k) }

/-! ## Action applicator -/

/-- Sort preferences (`SortOption` in `src/types/index.ts`). -/
inductive SortOption where
  | newest
  | oldest
  | alphabetical
  | completed
  deriving DecidableEq, Repr

/-- One element of `DetermineActionResponse.actions`
(`src/unnamed/part_015`): a tagged action with the optional fields the
switch statements read.  Optional string fields keep JavaScript
`undefined` as `none`; `targetDate` is carried as the parsed calendar
day of `new Date(action.targetDate)`. -/
inductive StructuredAction where
  | add (text : Option String) (emoji : Option String)
      (targetDate : Option Day) (time : Option String)
  | delete (todoId : Option String)
  | mark (todoId : Option String) (status : Option String)
  | sort (sortBy : Option SortOption)
  | edit (todoId : Option String) (text : Option String)
      (emoji : Option String) (targetDate : Option Day)
      (time : Option String)
  | clear (listToClear : Option String)
  deriving DecidableEq, Repr

/-- JavaScript truthiness of an optional string: `undefined` and the
empty string are falsy. -/
def truthyStr : Option String → Bool
  | some s => s != ""
  | none => false

/-- Model of `String.prototype.trim`: drop whitespace from both ends. -/
def jsTrim (s : String) : String :=
  let l := s.data.dropWhile Char.isWhitespace
  String.mk ((l.reverse.dropWhile Char.isWhitespace).reverse)

/-- Model of `a || b` for an optional string against a string default. -/
def orElseStr (o : Option String) (dflt : String) : String :=
  match o with
  | some s => if s = "" then dflt else s
  | none => dflt

/-- Model of `a || b` for an optional string against an optional
default, as in `action.emoji || todo.emoji`. -/
def orElseOpt (o : Option String) (dflt : Option String) : Option String :=
  match o with
  | some s => if s = "" then dflt else some s
  | none => dflt

/-- The test `format(todo.date, "yyyy-MM-dd") === format(selectedDate,
"yyyy-MM-dd")` (equivalently `toDateString()` equality in
`src/stores/use-todo-store.ts`): the formatted strings agree exactly
when the two values denote the same calendar day, which in this
embedding is equality of `Day`. -/
def isOnSelectedDate (t : TodoItem) (sel : Day) : Bool :=
  t.date == sel

/-- The subset of the collection handed to the interpreter
(`handleAction`, lines 282-289 of `src/stores/use-todo-store.ts` and
lines 402-405 of `src/unnamed/part_010`): items on the selected date
whose `removed` flag is not set. -/
def interpreterContext (todos : List TodoItem) (sel : Day) : List TodoItem :=
  todos.filter (fun t => isOnSelectedDate t sel && !t.removed)

/-- Ambient inputs of one `handleAction` call: the collection as read at
entry (`todos`, used by the `clear` arm and captured into the working
copy), the selected date, the raw text and emoji of the utterance, and
the stream of ids `Math.random().toString(36).substring(7)` hands out. -/
structure ActionEnv where
  todos : List TodoItem
  selectedDate : Day
  rawText : String
  rawEmoji : String
  freshIds : Nat → String

/-- The mutable locals of the `handleAction` loop in
`src/unnamed/part_011` (lines 63-181): the working copy `newTodos`, the
sort preference, and how many fresh ids were consumed so far. -/
structure WorkState where
  newTodos : List TodoItem
  sortBy : SortOption
  nextId : Nat
  deriving Repr

/-- One arm of the `switch (action.action)` statement of `handleAction`
in `src/unnamed/part_011` (lines 63-181), applied to the working copy:
`add` appends a freshly minted item; `delete` marks the referenced item
removed; `mark` sets or toggles completion; `sort` updates the
preference; `edit` rewrites text, emoji, date and time by id; `clear`
refilters the collection read at entry.  Every by-id arm is a `map`
touching only the matching item. -/
def applyAction (env : ActionEnv) (s : WorkState) (a : StructuredAction) :
    WorkState :=
  match a with
  | StructuredAction.add text emoji targetDate time =>
      let todoDate :=
        match targetDate with
        | some d => d
        | none => env.selectedDate
      let t : TodoItem := serializeTodo
        { id := env.freshIds s.nextId
          text := orElseStr text env.rawText
          completed := false
          emoji := some (orElseStr emoji env.rawEmoji)
          date := todoDate
          time := time
          removed := false }
      { s with newTodos := s.newTodos ++ [t], nextId := s.nextId + 1 }
  | StructuredAction.delete todoId =>
      if truthyStr todoId then
        { s with newTodos := s.newTodos.map (fun t =>
            if some t.id == todoId then { t with removed := true } else t) }
      else s
  | StructuredAction.mark todoId status =>
      if truthyStr todoId then
        { s with newTodos := s.newTodos.map (fun t =>
            if some t.id == todoId then
              { t with completed :=
                  if status == some "complete" then true
                  else if status == some "incomplete" then false
                  else !t.completed }
            else t) }
      else s
  | StructuredAction.sort sortBy =>
      match sortBy with
      | some o => { s with sortBy := o }
      | none => s
  | StructuredAction.edit todoId text emoji targetDate time =>
      if truthyStr todoId && truthyStr text then
        { s with newTodos := s.newTodos.map (fun t =>
            if some t.id == todoId then
              serializeTodo
                { t with
                    text := orElseStr text t.text
                    emoji := orElseOpt emoji t.emoji
                    date :=
                      match targetDate with
                      | some d => d
                      | none => t.date
                    time := orElseOpt time t.time }
            else t) }
      else s
  | StructuredAction.clear listToClear =>
      match listToClear with
      | some "all" =>
          { s with newTodos := env.todos.filter (fun t =>
              !(isOnSelectedDate t env.selectedDate)) }
      | some "completed" =>
          { s with newTodos := env.todos.filter (fun t =>
              !(t.completed && isOnSelectedDate t env.selectedDate)) }
      | some "incomplete" =>
          { s with newTodos := env.todos.filter (fun t =>
              !(!t.completed && isOnSelectedDate t env.selectedDate)) }
      | _ => s

/-- The `actions.forEach` loop: apply the returned actions in order. -/
def applyActions (env : ActionEnv) (s : WorkState)
    (as : List StructuredAction) : WorkState :=
  as.foldl (applyAction env) s

/-- The catch arm of `handleAction` (lines 379-392 of
`src/stores/use-todo-store.ts`, identically in the unnamed parts): when
`determineAction` rejects, a single fallback item built from the raw
text (`completed: false`, the raw emoji, the selected date) is passed to
`addTodo`, whose optimistic append settles in place once its own store
write succeeds.  The guard `if (!text.trim()) return` at the top of
`handleAction` is included. -/
def handleActionFallbackRun (todos : List TodoItem) (text emoji : String)
    (newId : String) (selectedDate : Day) : List TodoItem :=
  if jsTrim text = "" then todos
  else
    todos ++ [serializeTodo
      { id := newId
        text := text
        completed := false
        emoji := some emoji
        date := selectedDate
        time := none
        removed := false }]

/-! ## Claim-level specifications

The following predicates transcribe the wording of spec claims, to be
compared with the behaviour of the definitions above. -/

/-- Spec wording for the `replaceAll` delta (claim about
`setAllTodosOps`): exactly one put for every active id whose document
differs from the current one, no put for an active id whose document is
unchanged, exactly one delete for every existing key outside the new
active set, and no other operations. -/
def replaceAllClaimedDelta (current : String → Option JsonObj)
    (newTodos : List TodoItem) (existingKeys : List String)
    (ops : BulkOps) : Prop :=
  (∀ t ∈ newTodos.filter (fun t => !t.removed),
      current (todoFilename t) ≠ some (encodeTodo t) →
      ops.puts.count (todoFilename t, encodeTodo t) = 1) ∧
  (∀ t ∈ newTodos.filter (fun t => !t.removed),
      current (todoFilename t) = some (encodeTodo t) →
      ∀ p ∈ ops.puts, p.1 ≠ todoFilename t) ∧
  (∀ k ∈ existingKeys,
      k ∉ (newTodos.filter (fun t => !t.removed)).map todoFilename →
      ops.deletes.count k = 1) ∧
  (∀ k ∈ ops.deletes,
      k ∈ existingKeys ∧
      k ∉ (newTodos.filter (fun t => !t.removed)).map todoFilename)

/-- Spec wording for the body of the put recorded by
`add(\x7btext: "Buy milk", date: 2025-11-08\x7d)`: the text under an
`item_text` field, `completed` false, the date as an ISO string. -/
def claimedBuyMilkBody : JsonObj :=
  [("item_text", JsonV.str "Buy milk"),
   ("completed", JsonV.bool false),
   ("date", JsonV.str "2025-11-08T00:00:00.000Z")]

/-! ## Concrete fixtures used by counterexamples and witnesses -/

def dayD : Day := { year := 2025, month := 11, day := 8 }

def itemA : TodoItem :=
  { id := "a", text := "A", completed := false, emoji := none
    date := dayD, time := none, removed := false }

def itemB : TodoItem :=
  { id := "b", text := "B", completed := false, emoji := none
    date := dayD, time := none, removed := false }

/-- An item distinct from `itemA` but sharing its id. -/
def itemA2 : TodoItem :=
  { id := "a", text := "A2", completed := false, emoji := none
    date := dayD, time := none, removed := false }

def buyMilk : TodoItem :=
  { id := "x1", text := "Buy milk", completed := false, emoji := none
    date := dayD, time := none, removed := false }

/-- A remote store holding exactly the unchanged documents of `itemA`
and `itemB`. -/
def remoteAB : String → Option JsonObj := fun k =>
  if k = "a.json" then some (encodeTodo itemA)
  else if k = "b.json" then some (encodeTodo itemB)
  else none

def envW : ActionEnv :=
  { todos := [itemA], selectedDate := dayD, rawText := "x", rawEmoji := ""
    freshIds := fun _ => "f" }

def stateW : WorkState :=
  { newTodos := [itemA], sortBy := SortOption.newest, nextId := 0 }

/-! ## Theorems -/

/-- C3: a change notification arriving while the persisting flag or the
loading flag is set does not trigger a reload; one arriving outside the
guard window after the first load completed (`isInitialized`) does
trigger a reload. -/
theorem changeHandler_guard_window (s : GuardState) :
    ((s.isSaving = true ∨ s.isLoading = true) →
      changeHandlerReloads s = false) ∧
    (s.isInitialized = true → s.isSaving = false → s.isLoading = false →
      changeHandlerReloads s = true) := by
  constructor
  · rintro (h | h) <;> simp [changeHandlerReloads, h]
  · intro h1 h2 h3
    simp [changeHandlerReloads, h1, h2, h3]

theorem changeHandler_guard_window_witness :
    (changeHandlerReloads { isInitialized := true, isSaving := true, isLoading := false } = false) ∧
    (changeHandlerReloads { isInitialized := true, isSaving := false, isLoading := false } = true) :=
  ⟨(changeHandler_guard_window
      { isInitialized := true, isSaving := true, isLoading := false }).1 (Or.inl rfl),
   (changeHandler_guard_window
      { isInitialized := true, isSaving := false, isLoading := false }).2 rfl rfl rfl⟩

/-- C8: the item list passed to the interpreter is exactly the subset of
the in-memory collection on the selected date whose removed flag is not
set. -/
theorem interpreterContext_exact (todos : List TodoItem) (sel : Day)
    (t : TodoItem) :
    t ∈ interpreterContext todos sel ↔
      t ∈ todos ∧ t.date = sel ∧ t.removed = false := by
  simp only [interpreterContext, List.mem_filter, isOnSelectedDate,
    Bool.and_eq_true, beq_iff_eq, Bool.not_eq_true']

/-- C5: when the interpreter call fails, `handleAction` falls back to a
single unconditional add of the raw input text: the settled collection
is the previous collection plus exactly one new item carrying the raw
text with completion state `false`. -/
theorem interpreterFail_fallback_add (todos : List TodoItem)
    (text emoji newId : String) (sel : Day) (h : ¬ jsTrim text = "") :
    ∃ t, handleActionFallbackRun todos text emoji newId sel = todos ++ [t] ∧
      t.text = text ∧ t.completed = false := by
  unfold handleActionFallbackRun
  rw [if_neg h]
  exact ⟨_, rfl, rfl, rfl⟩

theorem interpreterFail_fallback_add_witness :
    (¬ jsTrim "call mom" = "") ∧
    ∃ t, handleActionFallbackRun [] "call mom" "" "id1" dayD = [] ++ [t] ∧
      t.text = "call mom" ∧ t.completed = false :=
  ⟨by decide, interpreterFail_fallback_add [] "call mom" "" "id1" dayD (by decide)⟩

/-- C2 counterexample: the rollback of `addTodo` is a filter on the
added id, not a snapshot restore.  Adding an item that shares the id of
an existing item and then failing the store write leaves the collection
empty instead of restoring the pre-call collection `[itemA]`. -/
theorem addTodo_rollback_counterexample :
    addTodoRun [itemA] itemA2 false = [] ∧ ¬ ([] = [itemA]) := by
  constructor
  · decide
  · decide

/-- C2 as amended: on a failed store call, `updateTodo`, `deleteTodo`
and `setAllTodos` restore the exact pre-call snapshot; `addTodo` removes
every item carrying the added id, which equals the pre-call collection
provided no existing item shares that id. -/
theorem rollback_restores_snapshot (todos : List TodoItem)
    (todo u : TodoItem) (i : String) (ns : List TodoItem) :
    (todo.id ∉ todos.map TodoItem.id → addTodoRun todos todo false = todos) ∧
    updateTodoRun todos u false = todos ∧
    deleteTodoRun todos i false = todos ∧
    setAllTodosRun todos ns false = todos := by
  refine ⟨?_, rfl, rfl, rfl⟩
  intro h
  show (todos ++ [serializeTodo todo]).filter (fun t => t.id != todo.id) = todos
  rw [List.filter_append]
  have h1 : todos.filter (fun t => t.id != todo.id) = todos := by
    apply List.filter_eq_self.mpr
    intro t ht
    simp only [bne_iff_ne, ne_eq]
    intro he
    exact h (List.mem_map.mpr ⟨t, ht, he⟩)
  have h2 : [serializeTodo todo].filter (fun t => t.id != todo.id) = [] := by
    simp [serializeTodo]
  rw [h1, h2, List.append_nil]

theorem rollback_restores_snapshot_witness :
    (itemB.id ∉ [itemA].map TodoItem.id) ∧
    addTodoRun [itemA] itemB false = [itemA] ∧
    updateTodoRun [itemA] itemB false = [itemA] ∧
    setAllTodosRun [itemA] [itemB] false = [itemA] :=
  ⟨by decide,
   (rollback_restores_snapshot [itemA] itemB itemB "b" [itemB]).1 (by decide),
   (rollback_restores_snapshot [itemA] itemB itemB "b" [itemB]).2.1,
   (rollback_restores_snapshot [itemA] itemB itemB "b" [itemB]).2.2.2⟩

/-- Any successfully decoded item carries `removed = false`: the decoder
hard-codes the flag. -/
theorem decodeTodo_removed_false (fn : String) (obj : JsonObj) (now : Day)
    (t : TodoItem) (h : decodeTodo fn obj now = some t) : t.removed = false := by
  cases hl : List.lookup "todo_item_text" obj with
  | none => simp [decodeTodo, hl] at h
  | some v =>
    cases v with
    | str s =>
      simp only [decodeTodo, hl, serializeTodo, Option.some.injEq] at h
      subst h
      rfl
    | bool b => simp [decodeTodo, hl] at h
    | num n => simp [decodeTodo, hl] at h
    | null => simp [decodeTodo, hl] at h

/-- C6: decoding a stored document defaults a missing `completed` field
to `false` and a missing `date` field to the current date at decode
time; an unknown extra field changes nothing; and a document carrying
`todo_item_text` always decodes successfully. -/
theorem decode_defensive_defaults (fn : String) (obj : JsonObj) (now : Day)
    (k : String) (v : JsonV) (text : String) :
    (List.lookup "completed" obj = none →
      ∀ t, decodeTodo fn obj now = some t → t.completed = false) ∧
    (List.lookup "date" obj = none →
      ∀ t, decodeTodo fn obj now = some t → t.date = now) ∧
    (k ∉ (["todo_item_text", "completed", "emoji", "date", "time"] : List String) →
      decodeTodo fn ((k, v) :: obj) now = decodeTodo fn obj now) ∧
    (List.lookup "todo_item_text" obj = some (JsonV.str text) →
      (decodeTodo fn obj now).isSome = true) := by
  refine ⟨?_, ?_, ?_, ?_⟩
  · intro hc t h
    cases hl : List.lookup "todo_item_text" obj with
    | none => simp [decodeTodo, hl] at h
    | some v₀ =>
      cases v₀ with
      | str s =>
        simp only [decodeTodo, hl, serializeTodo, Option.some.injEq] at h
        subst h
        show jsCompletedField (List.lookup "completed" obj) = false
        rw [hc]
        rfl
      | bool b => simp [decodeTodo, hl] at h
      | num n => simp [decodeTodo, hl] at h
      | null => simp [decodeTodo, hl] at h
  · intro hd t h
    cases hl : List.lookup "todo_item_text" obj with
    | none => simp [decodeTodo, hl] at h
    | some v₀ =>
      cases v₀ with
      | str s =>
        simp only [decodeTodo, hl, serializeTodo, Option.some.injEq] at h
        subst h
        show (match List.lookup "date" obj with
          | some (JsonV.str s) => if s = "" then now else parseIsoDay s
          | _ => now) = now
        rw [hd]
      | bool b => simp [decodeTodo, hl] at h
      | num n => simp [decodeTodo, hl] at h
      | null => simp [decodeTodo, hl] at h
  · intro hk
    simp only [List.mem_cons, List.not_mem_nil, or_false, not_or] at hk
    obtain ⟨h1, h2, h3, h4, h5⟩ := hk
    have l1 : List.lookup "todo_item_text" ((k, v) :: obj) =
        List.lookup "todo_item_text" obj := by
      simp [List.lookup, beq_eq_false_iff_ne.mpr (Ne.symm h1)]
    have l2 : List.lookup "completed" ((k, v) :: obj) =
        List.lookup "completed" obj := by
      simp [List.lookup, beq_eq_false_iff_ne.mpr (Ne.symm h2)]
    have l3 : List.lookup "emoji" ((k, v) :: obj) =
        List.lookup "emoji" obj := by
      simp [List.lookup, beq_eq_false_iff_ne.mpr (Ne.symm h3)]
    have l4 : List.lookup "date" ((k, v) :: obj) =
        List.lookup "date" obj := by
      simp [List.lookup, beq_eq_false_iff_ne.mpr (Ne.symm h4)]
    have l5 : List.lookup "time" ((k, v) :: obj) =
        List.lookup "time" obj := by
      simp [List.lookup, beq_eq_false_iff_ne.mpr (Ne.symm h5)]
    simp only [decodeTodo, l1, l2, l3, l4, l5]
  · intro h
    simp [decodeTodo, h]

theorem decode_defensive_defaults_witness :
    (List.lookup "completed" [("todo_item_text", JsonV.str "hello")] = none) ∧
    (decodeTodo "a.json" [("todo_item_text", JsonV.str "hello")] dayD =
      some { id := "a", text := "hello", completed := false, emoji := none
             date := dayD, time := none, removed := false }) ∧
    ({ id := "a", text := "hello", completed := false, emoji := none
       date := dayD, time := none, removed := false } : TodoItem).completed = false :=
  ⟨by decide, by decide,
   (decode_defensive_defaults "a.json" [("todo_item_text", JsonV.str "hello")]
      dayD "extra" JsonV.null "hello").1 (by decide)
     { id := "a", text := "hello", completed := false, emoji := none
       date := dayD, time := none, removed := false } (by decide)⟩

/-- C10: every item produced by a load (initial or triggered by an
external change) has `removed = false` - the decoder hard-codes the
flag - and the encoder never writes a `removed` field into the stored
document, so soft-deleted items whose document still exists reappear as
active after any reload. -/
theorem reload_resets_removed (listing : List String)
    (store : String → Option JsonObj) (now : Day) (t todo : TodoItem) :
    (t ∈ loadTodos listing store now → t.removed = false) ∧
    "removed" ∉ (encodeTodo todo).map Prod.fst := by
  constructor
  · intro ht
    simp only [loadTodos, List.mem_filterMap, Option.bind_eq_some] at ht
    obtain ⟨fn, _, obj, _, hdec⟩ := ht
    exact decodeTodo_removed_false fn obj now t hdec
  · cases he : todo.emoji <;> cases hti : todo.time <;>
      simp [encodeTodo, optField, he, hti]

/-- In a duplicate-free list every member is counted exactly once. -/
theorem count_one_of_nodup {α : Type} [BEq α] [LawfulBEq α] {l : List α}
    {a : α} (hn : l.Nodup) (ha : a ∈ l) : l.count a = 1 := by
  induction l with
  | nil => cases ha
  | cons b bs ih =>
    rw [List.count_cons]
    rcases List.mem_cons.mp ha with rfl | hmem
    · rw [List.count_eq_zero.mpr (List.nodup_cons.mp hn).1]
      simp
    · rw [ih (List.nodup_cons.mp hn).2 hmem]
      have hne : ¬ b = a := fun h => (List.nodup_cons.mp hn).1 (by rw [h]; exact hmem)
      simp [hne]

/-- C1 counterexample: `setAllTodos` does not diff documents.  With the
remote store holding the unchanged documents of `itemA` and `itemB`,
`replaceAll([itemA])` issues a put for the key of `itemA` even though
its document is identical to the current one, violating the claimed
delta (which demands zero puts here). -/
theorem replaceAll_unconditional_put_counterexample :
    ¬ replaceAllClaimedDelta remoteAB [itemA] ["a.json", "b.json"]
        (setAllTodosOps [itemA] ["a.json", "b.json"]) := by
  intro h
  exact h.2.1 itemA (by decide) (by decide)
    ("a.json", encodeTodo itemA) (by decide) (by decide)

/-- C1 as amended: `setAllTodos` issues exactly one put for every
non-removed id of the new set - whether or not its document differs
from the current one - and exactly one delete for every existing key
outside the new active set, and nothing else.  In the concrete scenario
`replaceAll([itemA])` with `itemA` and `itemB` present remotely, this
means one put for the key of `itemA` and one delete for the key of
`itemB`. -/
theorem setAllTodos_delta (newTodos : List TodoItem)
    (existingKeys : List String)
    (hN : ((newTodos.filter (fun t => !t.removed)).map todoFilename).Nodup)
    (hR : existingKeys.Nodup) :
    (∀ t ∈ newTodos.filter (fun t => !t.removed),
        (setAllTodosOps newTodos existingKeys).puts.count
          (todoFilename t, encodeTodo t) = 1) ∧
    (∀ p ∈ (setAllTodosOps newTodos existingKeys).puts,
        ∃ t ∈ newTodos.filter (fun t => !t.removed),
          p = (todoFilename t, encodeTodo t)) ∧
    (∀ k ∈ existingKeys,
        k ∉ (newTodos.filter (fun t => !t.removed)).map todoFilename →
        (setAllTodosOps newTodos existingKeys).deletes.count k = 1) ∧
    (∀ k ∈ (setAllTodosOps newTodos existingKeys).deletes,
        k ∈ existingKeys ∧
        k ∉ (newTodos.filter (fun t => !t.removed)).map todoFilename) := by
  have hputs : (setAllTodosOps newTodos existingKeys).puts
      = (newTodos.filter (fun t => !t.removed)).map
          (fun t => (todoFilename t, encodeTodo t)) := rfl
  have hdels : (setAllTodosOps newTodos existingKeys).deletes
      = existingKeys.filter (fun k =>
          !((newTodos.filter (fun t => !t.removed)).map todoFilename).contains k) := rfl
  have hpnodup : ((setAllTodosOps newTodos existingKeys).puts).Nodup := by
    rw [hputs]
    apply List.Nodup.of_map Prod.fst
    rw [List.map_map]
    exact hN
  refine ⟨?_, ?_, ?_, ?_⟩
  · intro t ht
    exact count_one_of_nodup hpnodup
      (hputs ▸ List.mem_map_of_mem _ ht)
  · intro p hp
    rw [hputs] at hp
    obtain ⟨t, ht, rfl⟩ := List.mem_map.mp hp
    exact ⟨t, ht, rfl⟩
  · intro k hk hk2
    apply count_one_of_nodup (hR.filter _)
    apply List.mem_filter.mpr
    refine ⟨hk, ?_⟩
    simp [List.contains, hk2]
  · intro k hk
    rw [hdels] at hk
    obtain ⟨hk1, hk2⟩ := List.mem_filter.mp hk
    refine ⟨hk1, ?_⟩
    intro hmem
    simp [List.contains, hmem] at hk2

theorem setAllTodos_delta_witness :
    ((([itemA] : List TodoItem).filter (fun t => !t.removed)).map todoFilename).Nodup ∧
    (["a.json", "b.json"] : List String).Nodup ∧
    (setAllTodosOps [itemA] ["a.json", "b.json"]).puts.count
      (todoFilename itemA, encodeTodo itemA) = 1 ∧
    (setAllTodosOps [itemA] ["a.json", "b.json"]).deletes.count "b.json" = 1 :=
  ⟨by decide, by decide,
   (setAllTodos_delta [itemA] ["a.json", "b.json"] (by decide) (by decide)).1
     itemA (by decide),
   (setAllTodos_delta [itemA] ["a.json", "b.json"] (by decide) (by decide)).2.2.1
     "b.json" (by decide) (by decide)⟩

/-- C4 counterexample: in `src/stores/use-todo-store.ts` the write
operations clear `isSaving` synchronously in the `finally` block - the
trace of a successful `addTodo` contains the synchronous clear event,
so the flag is not cleared through a positively-delayed settle timeout
as claimed for every write operation. -/
theorem persistFlag_sync_clear_counterexample :
    ¬ guardFlagClaim (useTodoStore_addTodo_events true) := by
  intro h
  exact h.2.1 (by decide)

/-- C4 as amended: every write operation raises the persisting flag
before the store write; the `use-todonna` hook implementations clear it
through a 100 ms settle timeout after completion (success or failure)
and never synchronously, while the `use-todo-store` implementations
clear it synchronously in the `finally` block, with no settle delay. -/
theorem persistFlag_clear_discipline (ok : Bool) :
    guardFlagClaim (useTodonna_addTodo_events ok) ∧
    guardFlagClaim (useTodonna_updateTodo_events ok) ∧
    guardFlagClaim (useTodonna_setAllTodos_events ok) ∧
    precedes SyncEvent.setSavingTrue SyncEvent.storeWrite
      (useTodoStore_addTodo_events ok) ∧
    SyncEvent.clearSavingNow ∈ useTodoStore_addTodo_events ok ∧
    SyncEvent.clearSavingNow ∈ useTodoStore_updateTodo_events ok := by
  cases ok <;>
    exact ⟨⟨by decide, by decide, 100, by decide, by decide⟩,
           ⟨by decide, by decide, 100, by decide, by decide⟩,
           ⟨by decide, by decide, 100, by decide, by decide⟩,
           by decide, by decide, by decide⟩

/-- C7 counterexample: the put body never contains an `item_text`
field - the text is stored under `todo_item_text` - so for the concrete
scenario the recorded body differs from the claimed one. -/
theorem addTodo_put_field_counterexample :
    List.lookup "item_text" (addTodoPut buyMilk).2 = none ∧
    ¬ (addTodoPut buyMilk).2 = claimedBuyMilkBody := by
  constructor
  · decide
  · decide

/-- C7 as amended: the put issued when persisting an item targets the
key `id.json` and its body stores the text under `todo_item_text` (not
`item_text`), the completion state under `completed`, and the ISO-8601
date string under `date`; adding `buyMilk` (text `Buy milk`, date
2025-11-08, new item) records exactly the concrete key and body
below. -/
theorem addTodo_put_key_and_body (t : TodoItem) :
    (addTodoPut t).1 = t.id ++ ".json" ∧
    List.lookup "todo_item_text" (addTodoPut t).2 = some (JsonV.str t.text) ∧
    List.lookup "completed" (addTodoPut t).2 = some (JsonV.bool t.completed) ∧
    List.lookup "date" (addTodoPut t).2 = some (JsonV.str (dayToIso t.date)) ∧
    List.lookup "item_text" (addTodoPut t).2 = none ∧
    addTodoPut buyMilk =
      ("x1.json",
        [("todo_item_text", JsonV.str "Buy milk"),
         ("completed", JsonV.bool false),
         ("date", JsonV.str "2025-11-08T00:00:00.000Z")]) := by
  refine ⟨rfl, ?_, ?_, ?_, ?_, by decide⟩ <;>
    cases he : t.emoji <;> cases hti : t.time <;>
      simp [addTodoPut, encodeTodo, optField, he, hti, List.lookup]

theorem reload_resets_removed_witness :
    (itemA ∈ loadTodos ["a.json"] remoteAB dayD) ∧
    itemA.removed = false ∧
    "removed" ∉ (encodeTodo itemA).map Prod.fst :=
  ⟨by decide,
   (reload_resets_removed ["a.json"] remoteAB dayD itemA itemA).1 (by decide),
   (reload_resets_removed ["a.json"] remoteAB dayD itemA itemA).2⟩

/-- Mapping a function that fixes every member leaves a list unchanged. -/
theorem map_eq_self_of_fixed {l : List TodoItem} {f : TodoItem → TodoItem}
    (h : ∀ t ∈ l, f t = t) : l.map f = l := by
  induction l with
  | nil => rfl
  | cons a as ih =>
    rw [List.map_cons, h a (List.mem_cons_self a as),
      ih (fun t ht => h t (List.mem_cons_of_mem a ht))]

/-- A `mark`, `delete` or `edit` action whose id matches no item of the
working copy leaves the applicator state untouched. -/
theorem applyAction_unmatched (env : ActionEnv) (s : WorkState) (i : String)
    (hmem : i ∉ s.newTodos.map TodoItem.id) :
    (∀ st, applyAction env s (StructuredAction.mark (some i) st) = s) ∧
    applyAction env s (StructuredAction.delete (some i)) = s ∧
    (∀ txt em dt tm,
      applyAction env s (StructuredAction.edit (some i) txt em dt tm) = s) := by
  have hid : ∀ t ∈ s.newTodos, (some t.id == some i) = false := by
    intro t ht
    apply beq_eq_false_iff_ne.mpr
    intro he
    exact hmem (List.mem_map.mpr ⟨t, ht, Option.some.inj he⟩)
  refine ⟨?_, ?_, ?_⟩
  · intro st
    cases hti : truthyStr (some i) with
    | false => simp [applyAction, hti]
    | true =>
      simp only [applyAction, hti, if_true]
      rw [map_eq_self_of_fixed (fun t ht => by simp [hid t ht])]
  · cases hti : truthyStr (some i) with
    | false => simp [applyAction, hti]
    | true =>
      simp only [applyAction, hti, if_true]
      rw [map_eq_self_of_fixed (fun t ht => by simp [hid t ht])]
  · intro txt em dt tm
    cases hti : (truthyStr (some i) && truthyStr txt) with
    | false => simp [applyAction, hti]
    | true =>
      simp only [applyAction, hti, if_true]
      rw [map_eq_self_of_fixed (fun t ht => by simp [hid t ht])]

/-- C9: a `mark`, `delete` or `edit` action whose id is not present in
the current working copy is skipped as a no-op - the working copy is
unchanged by that action - and the remaining actions of the batch are
still processed: the batch result equals the result of the batch with
that action removed. -/
theorem staleRef_skipped_batch_continues (env : ActionEnv) (s : WorkState)
    (pre post : List StructuredAction) (i : String)
    (st txt em : Option String) (dt : Option Day) (tm : Option String)
    (a : StructuredAction)
    (hmem : i ∉ (applyActions env s pre).newTodos.map TodoItem.id)
    (ha : a = StructuredAction.mark (some i) st ∨
          a = StructuredAction.delete (some i) ∨
          a = StructuredAction.edit (some i) txt em dt tm) :
    applyAction env (applyActions env s pre) a = applyActions env s pre ∧
    applyActions env s (pre ++ a :: post) = applyActions env s (pre ++ post) := by
  have hno : applyAction env (applyActions env s pre) a = applyActions env s pre := by
    rcases ha with rfl | rfl | rfl
    · exact (applyAction_unmatched env _ i hmem).1 st
    · exact (applyAction_unmatched env _ i hmem).2.1
    · exact (applyAction_unmatched env _ i hmem).2.2 txt em dt tm
  refine ⟨hno, ?_⟩
  show List.foldl (applyAction env) s (pre ++ a :: post)
    = List.foldl (applyAction env) s (pre ++ post)
  rw [List.foldl_append, List.foldl_append, List.foldl_cons]
  exact congrArg (fun w => List.foldl (applyAction env) w post) hno

theorem staleRef_skipped_batch_continues_witness :
    ("zz" ∉ (applyActions envW stateW []).newTodos.map TodoItem.id) ∧
    applyAction envW (applyActions envW stateW [])
      (StructuredAction.mark (some "zz") (some "complete"))
      = applyActions envW stateW [] ∧
    applyActions envW stateW
      ([] ++ StructuredAction.mark (some "zz") (some "complete") :: [])
      = applyActions envW stateW ([] ++ []) :=
  ⟨by decide,
   (staleRef_skipped_batch_continues envW stateW [] [] "zz"
      (some "complete") none none none none
      (StructuredAction.mark (some "zz") (some "complete"))
      (by decide) (Or.inl rfl)).1,
   (staleRef_skipped_batch_continues envW stateW [] [] "zz"
      (some "complete") none none none none
      (StructuredAction.mark (some "zz") (some "complete"))
      (by decide) (Or.inl rfl)).2⟩

end Vif
